import Mathlib

/-!
# cliaas — the Azure client (`iaas/azure/client.go`)

A shallow embedding of the Azure client of `cliaas` and the properties of its
resolver (`getFilteredList`), of `Delete`, `Replace`, `checkEnvVar`,
`NewClient` and `generateInstanceName`.

Conventions of the embedding:

* a Go `error` is an `Option GoError` (`none` is `nil`); a Go multi-value
  return is a product;
* a pointer field is an `Option`; dereferencing `nil` is the outcome `panic`;
* the backend behind the interface `ComputeVirtualMachinesClient` is a record
  of state-passing functions over an arbitrary backend state `σ`; every call
  made through the interface is recorded, with the error it returned, in the
  trace of the run;
* the `for` loop of `getFilteredList` is bounded by a fuel argument; running
  out of fuel is the outcome `outOfFuel`;
* `regexp.MustCompile` is a parameter `compile`: `none` for a pattern that
  does not compile (the call panics), `some p` for the predicate
  `MatchString` of the compiled expression;
* `time.Now()` is a parameter `now`.
-/

set_option autoImplicit false

namespace Azure

/-! ## Errors -/

/-- Go error values met in the client: package-level values made with
`errors.New`, values made with `fmt.Errorf`, errors coming from outside the
package (the SDK), and `errors.Wrap` of `github.com/pkg/errors`. -/
inductive GoError where
  | sentinel (msg : String)
  | errorf (msg : String)
  | external (msg : String)
  | withMessage (cause : GoError) (msg : String)
deriving DecidableEq

def InvalidAzureClientErr : GoError := .sentinel "invalid azure sdk client defined"
def NoMatchesErr : GoError := .sentinel "no VM names match the provided prefix"
def MultipleMatchesErr : GoError := .sentinel "multiple VM names match the provided prefix"

/-- The function `errors.Wrap` of `github.com/pkg/errors`: `nil` stays `nil`, any
other error is annotated with the message. -/
def Wrap (err : Option GoError) (message : String) : Option GoError :=
  match err with
  | none => none
  | some e => some (.withMessage e message)

/-- The function `errors.Cause` of `github.com/pkg/errors`: the innermost error. -/
def Cause : GoError → GoError
  | .withMessage cause _ => Cause cause
  | e => e

/-- The method `Error()`: the message of the error. -/
def GoError.Error : GoError → String
  | .sentinel msg => msg
  | .errorf msg => msg
  | .external msg => msg
  | .withMessage cause msg => msg ++ ": " ++ GoError.Error cause

/-! ## Strings and time -/

/-- The function `strings.Split` on lists of characters, for a separator of one
character. -/
def splitChars (sep : Char) : List Char → List (List Char)
  | [] => [[]]
  | c :: cs =>
    if c = sep then [] :: splitChars sep cs
    else
      match splitChars sep cs with
      | [] => [[c]]
      | hd :: tl => (c :: hd) :: tl

/-- The function `strings.Split(s, sep)` for a separator of one character (the
client only splits on `"_"`). -/
def Split (s : String) (sep : Char) : List String :=
  (splitChars sep s.data).map String.mk

/-- The function `strings.Join(elems, sep)`. -/
def Join (elems : List String) (sep : String) : String :=
  String.mk (List.intercalate sep.data (elems.map String.data))

/-- A reading of the wall clock: the civil fields of a `time.Time` in its
location. -/
structure Time where
  Year : Nat
  Month : Nat
  Day : Nat
  Hour : Nat
  Minute : Nat
  Second : Nat
deriving DecidableEq

/-- The civil fields are in range. -/
def Time.Valid (t : Time) : Prop :=
  1 ≤ t.Month ∧ t.Month ≤ 12 ∧ 1 ≤ t.Day ∧ t.Day ≤ 31 ∧
    t.Hour < 24 ∧ t.Minute < 60 ∧ t.Second < 60

instance Time.decidableValid (t : Time) : Decidable t.Valid := by
  unfold Time.Valid; infer_instance

/-- Seconds elapsed since midnight. -/
def Time.secondOfDay (t : Time) : Nat :=
  t.Hour * 3600 + t.Minute * 60 + t.Second

/-- The helper `appendInt` of package `time`: decimal digits, padded with zeros
on the left up to `width`. -/
def appendInt (x width : Nat) : List Char :=
  let ds := Nat.toDigits 10 x
  List.replicate (width - ds.length) '0' ++ ds

/-- The hour on the 12-hour clock, as `time.Format` computes it for `3`/`03`. -/
def hour12 (h : Nat) : Nat :=
  if h % 12 = 0 then 12 else h % 12

/-- The formatting loop of `time.Time.Format` on a layout made of decimal digits:
the layout is cut into the chunks `nextStdChunk` recognises among digits
(`2006`, `01`..`06`, `15`, `1`, `2`, `3`, `4`, `5`); any other character is
copied. -/
def formatChars (t : Time) : List Char → List Char
  | [] => []
  | '2' :: '0' :: '0' :: '6' :: rest => appendInt t.Year 4 ++ formatChars t rest
  | '2' :: rest => appendInt t.Day 0 ++ formatChars t rest
  | '0' :: '1' :: rest => appendInt t.Month 2 ++ formatChars t rest
  | '0' :: '2' :: rest => appendInt t.Day 2 ++ formatChars t rest
  | '0' :: '3' :: rest => appendInt (hour12 t.Hour) 2 ++ formatChars t rest
  | '0' :: '4' :: rest => appendInt t.Minute 2 ++ formatChars t rest
  | '0' :: '5' :: rest => appendInt t.Second 2 ++ formatChars t rest
  | '0' :: '6' :: rest => appendInt (t.Year % 100) 2 ++ formatChars t rest
  | '1' :: '5' :: rest => appendInt t.Hour 2 ++ formatChars t rest
  | '1' :: rest => appendInt t.Month 0 ++ formatChars t rest
  | '3' :: rest => appendInt (hour12 t.Hour) 0 ++ formatChars t rest
  | '4' :: rest => appendInt t.Minute 0 ++ formatChars t rest
  | '5' :: rest => appendInt t.Second 0 ++ formatChars t rest
  | c :: rest => c :: formatChars t rest

/-- The method `time.Time.Format(layout)` for a layout made of decimal digits. -/
def Time.Format (t : Time) (layout : String) : String :=
  String.mk (formatChars t layout.data)

/-- The function `generateInstanceName`; `now` is the value of `time.Now()`. -/
def generateInstanceName (now : Time) (currentName : String) : String :=
  let tstamp := now.Format "20060112123456"
  let splits := Split currentName '_'
  if splits.length = 1 then
    currentName ++ "_" ++ tstamp
  else
    let truncatedSplits := splits.take (splits.length - 1)
    let truncatedSplits := truncatedSplits ++ [tstamp]
    Join truncatedSplits "_"

/-- Specification of the naming rule: the name up to, but excluding, its last
underscore. -/
def beforeLastUnderscore (name : String) : String :=
  String.mk ((name.data.reverse.dropWhile (fun c => c != '_')).tail.reverse)

/-! ## Data model of the SDK

The structs of `github.com/Azure/azure-sdk-for-go/arm/compute` that the client
handles. The fields the client reads or writes are explicit; all the other
fields of a struct are carried, untouched, in `rest`. -/

structure VirtualHardDisk (R : Type) where
  URI : Option String
  rest : R
deriving DecidableEq

structure OSDisk (R : Type) where
  Image : Option (VirtualHardDisk R)
  rest : R
deriving DecidableEq

structure StorageProfile (R : Type) where
  OsDisk : Option (OSDisk R)
  rest : R
deriving DecidableEq

structure VirtualMachineProperties (R : Type) where
  StorageProfile : Option (StorageProfile R)
  rest : R
deriving DecidableEq

structure VirtualMachine (R : Type) where
  Name : Option String
  VirtualMachineProperties : Option (VirtualMachineProperties R)
  rest : R
deriving DecidableEq

structure VirtualMachineListResult (R : Type) where
  Value : Option (List (VirtualMachine R))
  rest : R
deriving DecidableEq

/-! ## The backend interface and the trace of a run -/

/-- A call made through the interface `ComputeVirtualMachinesClient`, with its
arguments (the `cancel` channel is always `nil`). -/
inductive Call (R : Type) where
  | ListAllNextResults (lastResults : VirtualMachineListResult R)
  | CreateOrUpdate (resourceGroupName vmName : String) (parameters : VirtualMachine R)
  | Delete (resourceGroupName vmName : String)
  | Deallocate (resourceGroupName vmName : String)
  | List (resourceGroupName : String)
deriving DecidableEq

/-- A call changes the fleet: `CreateOrUpdate`, `Delete` or `Deallocate`. -/
def Call.isMutating {R : Type} : Call R → Bool
  | .CreateOrUpdate _ _ _ => true
  | .Delete _ _ => true
  | .Deallocate _ _ => true
  | .ListAllNextResults _ => false
  | .List _ => false

/-- A call made through the interface together with the error it returned. -/
structure Event (R : Type) where
  call : Call R
  err : Option GoError
deriving DecidableEq

/-- The interface `ComputeVirtualMachinesClient`: each method takes the state of
the backend and returns its results and the next state. The `autorest.Response`
results are dropped, as the client drops them. -/
structure ComputeVirtualMachinesClient (R σ : Type) where
  ListAllNextResults : VirtualMachineListResult R → σ →
    (VirtualMachineListResult R × Option GoError) × σ
  CreateOrUpdate : String → String → VirtualMachine R → σ → Option GoError × σ
  Delete : String → String → σ → Option GoError × σ
  Deallocate : String → String → σ → Option GoError × σ
  List : String → σ → (VirtualMachineListResult R × Option GoError) × σ

structure Client (R σ : Type) where
  VirtualMachinesClient : ComputeVirtualMachinesClient R σ
  resourceGroupName : String

/-- How a call of a client function ends: it returns, it panics (a nil
dereference, `regexp.MustCompile` of an invalid pattern), or the fuel of the
listing loop is spent. -/
inductive Outcome (α : Type) where
  | ret (a : α)
  | panic
  | outOfFuel
deriving DecidableEq

/-- The result of running a client function: how it ended, the state of the
backend afterwards, and the calls it made, in order. -/
structure Ran (α σ R : Type) where
  out : Outcome α
  st : σ
  trace : List (Event R)
deriving DecidableEq

/-! ## The client -/

/-- The function `getMatchingInstances`; `none` when `*instance.Name` dereferences
a nil name. -/
def getMatchingInstances {R : Type} (vmList : List (VirtualMachine R))
    (identifierRegex : String → Bool) (matchingInstances : List (VirtualMachine R)) :
    Option (List (VirtualMachine R)) :=
  match vmList with
  | [] => some matchingInstances
  | inst :: rest =>
    match inst.Name with
    | none => none
    | some name =>
      if identifierRegex name then
        getMatchingInstances rest identifierRegex (matchingInstances ++ [inst])
      else
        getMatchingInstances rest identifierRegex matchingInstances

/-- The `for` loop of `getFilteredList`, from its condition on. -/
def getFilteredListLoop {R σ : Type} (s : Client R σ) (vmNameFilter : String → Bool) :
    Nat → VirtualMachineListResult R → List (VirtualMachine R) → σ →
      Ran (Option (List (VirtualMachine R)) × Option GoError) σ R
  | 0, _, _, st => ⟨.outOfFuel, st, []⟩
  | fuel + 1, vmListResults, matchingInstances, st =>
    match vmListResults.Value with
    | none => ⟨.ret (some matchingInstances, none), st, []⟩
    | some value =>
      if value.length > 0 then
        match getMatchingInstances value vmNameFilter matchingInstances with
        | none => ⟨.panic, st, []⟩
        | some matchingInstances =>
          match s.VirtualMachinesClient.ListAllNextResults vmListResults st with
          | ((vmListResults1, err), st1) =>
            match err with
            | some e =>
              ⟨.ret (none, Wrap (some e) "ListAllNextResults call failed"), st1,
                [⟨.ListAllNextResults vmListResults, err⟩]⟩
            | none =>
              let r := getFilteredListLoop s vmNameFilter fuel vmListResults1 matchingInstances st1
              ⟨r.out, r.st, ⟨.ListAllNextResults vmListResults, err⟩ :: r.trace⟩
      else ⟨.ret (some matchingInstances, none), st, []⟩

/-- The method `Client.getFilteredList`. -/
def getFilteredList {R σ : Type} (s : Client R σ) (compile : String → Option (String → Bool))
    (fuel : Nat) (identifier : String) (st : σ) :
    Ran (Option (List (VirtualMachine R)) × Option GoError) σ R :=
  match s.VirtualMachinesClient.List s.resourceGroupName st with
  | ((vmListResults, err), st1) =>
    match err with
    | some e =>
      ⟨.ret (none, Wrap (some e) "error in getting list of VMs from azure"), st1,
        [⟨.List s.resourceGroupName, err⟩]⟩
    | none =>
      match compile identifier with
      | none => ⟨.panic, st1, [⟨.List s.resourceGroupName, err⟩]⟩
      | some vmNameFilter =>
        let r := getFilteredListLoop s vmNameFilter fuel vmListResults [] st1
        ⟨r.out, r.st, ⟨.List s.resourceGroupName, err⟩ :: r.trace⟩

/-- The method `Client.Delete`. -/
def Delete {R σ : Type} (s : Client R σ) (compile : String → Option (String → Bool))
    (fuel : Nat) (identifier : String) (st : σ) : Ran (Option GoError) σ R :=
  let r := getFilteredList s compile fuel identifier st
  match r.out with
  | .panic => ⟨.panic, r.st, r.trace⟩
  | .outOfFuel => ⟨.outOfFuel, r.st, r.trace⟩
  | .ret (matchingInstances, err) =>
    match err with
    | some e =>
      ⟨.ret (Wrap (some e) "error when attempting to get filtered vm list"), r.st, r.trace⟩
    | none =>
      match matchingInstances.getD [] with
      | [] => ⟨.ret (some NoMatchesErr), r.st, r.trace⟩
      | [inst] =>
        match inst.Name with
        | none => ⟨.panic, r.st, r.trace⟩
        | some name =>
          match s.VirtualMachinesClient.Delete s.resourceGroupName name r.st with
          | (err, st1) =>
            ⟨.ret err, st1, r.trace ++ [⟨.Delete s.resourceGroupName name, err⟩]⟩
      | _ :: _ :: _ => ⟨.ret (some MultipleMatchesErr), r.st, r.trace⟩

/-- The method `Client.deallocate`. -/
def deallocate {R σ : Type} (s : Client R σ) (compile : String → Option (String → Bool))
    (fuel : Nat) (identifier : String) (st : σ) :
    Ran (Option (VirtualMachine R) × Option GoError) σ R :=
  let r := getFilteredList s compile fuel identifier st
  match r.out with
  | .panic => ⟨.panic, r.st, r.trace⟩
  | .outOfFuel => ⟨.outOfFuel, r.st, r.trace⟩
  | .ret (matchingInstances, err) =>
    match err with
    | some e =>
      ⟨.ret (none, Wrap (some e) "error when attempting to get filtered vm list"),
        r.st, r.trace⟩
    | none =>
      match matchingInstances.getD [] with
      | [] => ⟨.ret (none, some NoMatchesErr), r.st, r.trace⟩
      | [inst] =>
        match inst.Name with
        | none => ⟨.panic, r.st, r.trace⟩
        | some name =>
          match s.VirtualMachinesClient.Deallocate s.resourceGroupName name r.st with
          | (err, st1) =>
            ⟨.ret (some inst, err), st1,
              r.trace ++ [⟨.Deallocate s.resourceGroupName name, err⟩]⟩
      | _ :: _ :: _ => ⟨.ret (none, some MultipleMatchesErr), r.st, r.trace⟩

/-- The assignment
`instance.VirtualMachineProperties.StorageProfile.OsDisk.Image.URI = &vhdURL`;
`none` when a pointer on the path is nil (the assignment panics). -/
def assignImageURI {R : Type} (inst : VirtualMachine R) (vhdURL : String) :
    Option (VirtualMachine R) :=
  match inst.VirtualMachineProperties with
  | none => none
  | some props =>
    match props.StorageProfile with
    | none => none
    | some sp =>
      match sp.OsDisk with
      | none => none
      | some od =>
        match od.Image with
        | none => none
        | some img =>
          some { inst with
            VirtualMachineProperties := some { props with
              StorageProfile := some { sp with
                OsDisk := some { od with
                  Image := some { img with URI := some vhdURL } } } } }

/-- The method `Client.Replace`; `now` is the value `time.Now()` has inside
`generateInstanceName`. -/
def Replace {R σ : Type} (s : Client R σ) (compile : String → Option (String → Bool))
    (now : Time) (fuel : Nat) (identifier : String) (vhdURL : String) (st : σ) :
    Ran (Option GoError) σ R :=
  let r := deallocate s compile fuel identifier st
  match r.out with
  | .panic => ⟨.panic, r.st, r.trace⟩
  | .outOfFuel => ⟨.outOfFuel, r.st, r.trace⟩
  | .ret (inst?, err) =>
    match err with
    | some e => ⟨.ret (Wrap (some e) "error shutting down VM"), r.st, r.trace⟩
    | none =>
      match inst? with
      | none => ⟨.panic, r.st, r.trace⟩
      | some inst =>
        match inst.Name with
        | none => ⟨.panic, r.st, r.trace⟩
        | some name =>
          let tmpName := generateInstanceName now name
          match assignImageURI { inst with Name := some tmpName } vhdURL with
          | none => ⟨.panic, r.st, r.trace⟩
          | some inst1 =>
            match s.VirtualMachinesClient.CreateOrUpdate s.resourceGroupName tmpName inst1 r.st with
            | (err, st1) =>
              ⟨.ret err, st1,
                r.trace ++ [⟨.CreateOrUpdate s.resourceGroupName tmpName inst1, err⟩]⟩

/-! ## Construction of the client -/

def defaultResourceManagerEndpoint : String := "https://management.azure.com/"

/-- The verb `%v` of package `fmt` on a `[]string`. -/
def fmtStrings (xs : List String) : String :=
  "[" ++ " ".intercalate xs ++ "]"

/-- The `range` loop of `checkEnvVar` over the entries of the map, in the order
the loop visits them. -/
def checkEnvVarLoop : List (String × String) → List String → List String
  | [], missingVars => missingVars
  | (varName, value) :: rest, missingVars =>
    if value = "" then checkEnvVarLoop rest (missingVars ++ [varName])
    else checkEnvVarLoop rest missingVars

/-- The function `checkEnvVar`; `envVars` lists the entries of the Go map in the
order `range` visits them (Go leaves that order unspecified). -/
def checkEnvVar (envVars : List (String × String)) : Option GoError :=
  let missingVars := checkEnvVarLoop envVars []
  if missingVars.length > 0 then
    some (.errorf ("Missing environment variables " ++ fmtStrings missingVars))
  else none

/-- The keys of the entries whose value is empty, in the order of the entries. -/
def emptyKeys (envVars : List (String × String)) : List String :=
  (envVars.filter (fun kv => decide (kv.2 = ""))).map Prod.fst

/-- The map `c` that `NewClient` builds from its arguments. -/
def credentials (subscriptionID clientID clientSecret tenantID : String) :
    List (String × String) :=
  [("AZURE_CLIENT_ID", clientID),
   ("AZURE_CLIENT_SECRET", clientSecret),
   ("AZURE_SUBSCRIPTION_ID", subscriptionID),
   ("AZURE_TENANT_ID", tenantID)]

/-- The function `NewClient`. `rangeOrder` is the order in which `range` visits a
map; `NewServicePrincipalTokenFromCredentials` is the SDK helper of that name;
`NewVirtualMachinesClient subscriptionID spt` is the SDK client
`compute.NewVirtualMachinesClient(subscriptionID)` with `Authorizer` set to
`spt`. -/
def NewClient {R σ Token : Type}
    (rangeOrder : List (String × String) → List (String × String))
    (NewServicePrincipalTokenFromCredentials :
      List (String × String) → String → Token × Option GoError)
    (NewVirtualMachinesClient : String → Token → ComputeVirtualMachinesClient R σ)
    (subscriptionID clientID clientSecret tenantID resourceGroupName
      resourceManagerEndpoint : String) :
    Option (Client R σ) × Option GoError :=
  let c := credentials subscriptionID clientID clientSecret tenantID
  match checkEnvVar (rangeOrder c) with
  | some err => (none, Wrap (some err) "failed on check of env vars")
  | none =>
    let resourceManagerEndpoint :=
      if resourceManagerEndpoint = "" then defaultResourceManagerEndpoint
      else resourceManagerEndpoint
    match NewServicePrincipalTokenFromCredentials c resourceManagerEndpoint with
    | (_, some err) => (none, Wrap (some err) "failed to generate new service principal token")
    | (spt, none) =>
      (some { VirtualMachinesClient := NewVirtualMachinesClient subscriptionID spt,
              resourceGroupName := resourceGroupName }, none)

/-! ## Notions used to state the properties -/

/-- The instance has a name and the filter matches it. -/
def nameMatches {R : Type} (re : String → Bool) (vm : VirtualMachine R) : Bool :=
  match vm.Name with
  | some name => re name
  | none => false

/-- The instances of the pages, in listing order, whose name matches the filter. -/
def matched {R : Type} (re : String → Bool) (pages : List (List (VirtualMachine R))) :
    List (VirtualMachine R) :=
  pages.flatten.filter (nameMatches re)

/-- `Listing B cur st pages st1`: starting from the page `cur` just fetched in
state `st`, the backend serves exactly the non-empty pages `pages` (`cur` being
the first one), every next-page fetch succeeds, and the fetch after the last page
returns a result without instances, which is how a backend reports that there is
no further continuation; `st1` is the state of the backend at that point. -/
def Listing {R σ : Type} (B : ComputeVirtualMachinesClient R σ) :
    VirtualMachineListResult R → σ → List (List (VirtualMachine R)) → σ → Prop
  | cur, st, [], st1 => (cur.Value = none ∨ cur.Value = some []) ∧ st1 = st
  | cur, st, page :: rest, st1 =>
    cur.Value = some page ∧ page ≠ [] ∧
      ∃ next st2, B.ListAllNextResults cur st = ((next, none), st2) ∧
        Listing B next st2 rest st1

/-- `Resolves s compile identifier st pages re st1`: the identifier compiles to
the filter `re`, and from state `st` the listing of the client's resource group
succeeds and consists of the finite sequence of non-empty pages `pages`, all of
whose instances have a name; `st1` is the state of the backend once the listing
is exhausted. -/
structure Resolves {R σ : Type} (s : Client R σ) (compile : String → Option (String → Bool))
    (identifier : String) (st : σ) (pages : List (List (VirtualMachine R)))
    (re : String → Bool) (st1 : σ) : Prop where
  compiles : compile identifier = some re
  named : ∀ page ∈ pages, ∀ vm ∈ page, vm.Name ≠ none
  lists : ∃ first st0, s.VirtualMachinesClient.List s.resourceGroupName st = ((first, none), st0) ∧
    Listing s.VirtualMachinesClient first st0 pages st1

/-- The image reference of an instance: the field
`VirtualMachineProperties.StorageProfile.OsDisk.Image.URI`. -/
def imageURI {R : Type} (vm : VirtualMachine R) : Option String :=
  match vm.VirtualMachineProperties with
  | none => none
  | some props =>
    match props.StorageProfile with
    | none => none
    | some sp =>
      match sp.OsDisk with
      | none => none
      | some od =>
        match od.Image with
        | none => none
        | some img => img.URI

/-- The two instances agree on every field other than the name and the image
reference: at each level of the path to the image reference the pointer is
present in both, and all the other fields are equal. -/
def SameExceptNameAndImage {R : Type} (a b : VirtualMachine R) : Prop :=
  a.rest = b.rest ∧
  ∃ pa pb, a.VirtualMachineProperties = some pa ∧ b.VirtualMachineProperties = some pb ∧
    pa.rest = pb.rest ∧
  ∃ sa sb, pa.StorageProfile = some sa ∧ pb.StorageProfile = some sb ∧
    sa.rest = sb.rest ∧
  ∃ oa ob, sa.OsDisk = some oa ∧ sb.OsDisk = some ob ∧
    oa.rest = ob.rest ∧
  ∃ ia ib, oa.Image = some ia ∧ ob.Image = some ib ∧
    ia.rest = ib.rest

/-- The operations of the capability contract of a compute backend. -/
inductive Capability where
  | list
  | stop
  | create
  | delete
  | waitForStatus (targetState : String)
deriving DecidableEq

/-- The capability a call of the Azure interface exercises. The interface has no
method to wait for a state. -/
def Call.capability {R : Type} : Call R → Capability
  | .ListAllNextResults _ => .list
  | .CreateOrUpdate _ _ _ => .create
  | .Delete _ _ => .delete
  | .Deallocate _ _ => .stop
  | .List _ => .list

/-! ## A scripted backend and a literal filter, for the examples -/

/-- The script of a backend: the pages it serves, and the errors it returns. -/
structure Script where
  pages : List (List (VirtualMachine String))
  listErr : Option GoError
  nextErrAt : Option Nat
  deallocateErr : Option GoError
  createErr : Option GoError
  deleteErr : Option GoError

/-- The page of the given index, or a result without instances past the last
page. -/
def Script.page (sc : Script) (i : Nat) : VirtualMachineListResult String :=
  match sc.pages.get? i with
  | some p => { Value := some p, rest := "page" }
  | none => { Value := none, rest := "" }

/-- A backend that follows a script; its state is the number of pages served. -/
def scriptedClient (sc : Script) : ComputeVirtualMachinesClient String Nat where
  List := fun _ served =>
    match sc.listErr with
    | some e => (({ Value := none, rest := "" }, some e), served)
    | none => ((sc.page 0, none), 1)
  ListAllNextResults := fun _ served =>
    if sc.nextErrAt = some served then
      (({ Value := none, rest := "" }, some (.external "next page failed")), served)
    else ((sc.page served, none), served + 1)
  CreateOrUpdate := fun _ _ _ served => (sc.createErr, served)
  Delete := fun _ _ served => (sc.deleteErr, served)
  Deallocate := fun _ _ served => (sc.deallocateErr, served)

/-- A name contains the pattern. -/
def containsChars (pat : List Char) : List Char → Bool
  | [] => pat.isEmpty
  | c :: cs => pat.isPrefixOf (c :: cs) || containsChars pat cs

/-- A stand-in for `regexp.MustCompile` on patterns made of letters, digits, `_`
and `-`, which match a name exactly when they occur in it; other patterns are
not supported and are reported as not compiling. -/
def literalCompile (pattern : String) : Option (String → Bool) :=
  if pattern.data.all (fun c => c.isAlphanum || c = '_' || c = '-') then
    some (fun name => containsChars pattern.data name.data)
  else none

/-- An instance with the given name and image reference; the other fields of
each struct are stood for by a label. -/
def vmNamed (name image : String) : VirtualMachine String :=
  { Name := some name,
    VirtualMachineProperties := some
      { StorageProfile := some
          { OsDisk := some
              { Image := some { URI := some image, rest := "" },
                rest := "osdisk of " ++ name },
            rest := "data disks of " ++ name },
        rest := "hardware and network of " ++ name },
    rest := "id, location and tags of " ++ name }

/-- A fleet of three instances served in two pages, with the errors the mutating
calls are to return. -/
def fleet (deallocateErr createErr deleteErr : Option GoError) : Script :=
  { pages := [[vmNamed "web_1" "old.vhd", vmNamed "db_1" "old.vhd"], [vmNamed "web_2" "old.vhd"]],
    listErr := none,
    nextErrAt := none,
    deallocateErr := deallocateErr,
    createErr := createErr,
    deleteErr := deleteErr }

/-- The client of the resource group `rg` over a scripted backend. -/
def clientOf (sc : Script) : Client String Nat :=
  { VirtualMachinesClient := scriptedClient sc, resourceGroupName := "rg" }

/-- The filter `literalCompile` yields for a pattern it supports. -/
def literalFilter (pattern : String) : String → Bool :=
  fun name => containsChars pattern.data name.data

/-- The fleet, with a second page whose fetch fails. -/
def brokenFleet : Script :=
  { fleet none none none with nextErrAt := some 1 }

/-! ## Lemmas on splitting and joining -/

theorem splitChars_ne_nil (sep : Char) (l : List Char) : splitChars sep l ≠ [] := by
  cases l with
  | nil => simp [splitChars]
  | cons c cs =>
    unfold splitChars
    split
    · simp
    · split <;> simp

theorem splitChars_of_not_mem (sep : Char) (l : List Char) (h : sep ∉ l) :
    splitChars sep l = [l] := by
  induction l with
  | nil => rfl
  | cons c cs ih =>
    have hc : c ≠ sep := fun e => h (by simp [e])
    have hcs : sep ∉ cs := fun e => h (by simp [e])
    simp [splitChars, hc, ih hcs]

theorem splitChars_append_sep (sep : Char) (pre suf : List Char) (h : sep ∉ suf) :
    splitChars sep (pre ++ sep :: suf) = splitChars sep pre ++ [suf] := by
  induction pre with
  | nil => simp [splitChars, splitChars_of_not_mem sep suf h]
  | cons c cs ih =>
    by_cases hc : c = sep
    · simp [splitChars, hc, ← ih]
    · cases hs : splitChars sep cs with
      | nil => exact absurd hs (splitChars_ne_nil sep cs)
      | cons hd tl =>
        rw [hs] at ih
        simp [splitChars, hc, ih, hs]

theorem intercalate_splitChars (sep : Char) (l : List Char) :
    List.intercalate [sep] (splitChars sep l) = l := by
  induction l with
  | nil => rfl
  | cons c cs ih =>
    by_cases hc : c = sep
    · cases hs : splitChars sep cs with
      | nil => exact absurd hs (splitChars_ne_nil sep cs)
      | cons hd tl =>
        rw [hs] at ih
        simp [splitChars, hc, hs, List.intercalate, List.intersperse] at ih ⊢
        exact ih
    · cases hs : splitChars sep cs with
      | nil => exact absurd hs (splitChars_ne_nil sep cs)
      | cons hd tl =>
        rw [hs] at ih
        cases tl with
        | nil => simp [splitChars, hc, hs, List.intercalate, List.intersperse] at ih ⊢; exact ih
        | cons t ts =>
          simp [splitChars, hc, hs, List.intercalate, List.intersperse] at ih ⊢
          exact ih

theorem intercalate_append_singleton (sep : List Char) (xs : List (List Char))
    (y : List Char) (h : xs ≠ []) :
    List.intercalate sep (xs ++ [y]) = List.intercalate sep xs ++ sep ++ y := by
  induction xs with
  | nil => exact absurd rfl h
  | cons x rest ih =>
    cases rest with
    | nil => simp [List.intercalate, List.intersperse]
    | cons r rs =>
      have := ih (by simp)
      simp [List.intercalate, List.intersperse] at this ⊢
      exact this

theorem exists_last_sep (sep : Char) (l : List Char) (h : sep ∈ l) :
    ∃ pre suf, l = pre ++ sep :: suf ∧ sep ∉ suf := by
  induction l with
  | nil => simp at h
  | cons c cs ih =>
    by_cases hcs : sep ∈ cs
    · obtain ⟨pre, suf, e, hs⟩ := ih hcs
      exact ⟨c :: pre, suf, by simp [e], hs⟩
    · have hc : sep = c := by
        rcases List.mem_cons.mp h with e | e
        · exact e
        · exact absurd e hcs
      exact ⟨[], cs, by simp [hc], hcs⟩

theorem beforeLast_append_sep (pre suf : List Char) (h : '_' ∉ suf) :
    ((pre ++ '_' :: suf).reverse.dropWhile (fun c => c != '_')).tail.reverse = pre := by
  have h1 : (pre ++ '_' :: suf).reverse = suf.reverse ++ '_' :: pre.reverse := by simp
  rw [h1, List.dropWhile_append_of_pos]
  · simp [List.dropWhile]
  · intro c hc
    have : c ≠ '_' := fun e => h (by rw [← e]; exact List.mem_reverse.mp hc)
    simpa using this

theorem length_splitChars_of_mem (sep : Char) (l : List Char) (h : sep ∈ l) :
    (splitChars sep l).length ≠ 1 := by
  obtain ⟨pre, suf, e, hs⟩ := exists_last_sep sep l h
  rw [e, splitChars_append_sep sep pre suf hs]
  have := splitChars_ne_nil sep pre
  cases hp : splitChars sep pre with
  | nil => exact absurd hp this
  | cons a b => simp

theorem map_data_map_mk (xs : List (List Char)) :
    (xs.map String.mk).map String.data = xs := by
  induction xs with
  | nil => rfl
  | cons x rest ih => simp only [List.map_cons, ih]

/-! ## The naming rule -/

/-- C8: `generateInstanceName` returns the whole name followed by `_` and the
timestamp segment when the name has no underscore, and otherwise the name up to
but excluding its last underscore, followed by `_` and the timestamp segment. -/
theorem generateInstanceName_spec (now : Time) (currentName : String) :
    generateInstanceName now currentName =
      (if '_' ∈ currentName.data then beforeLastUnderscore currentName else currentName)
        ++ "_" ++ now.Format "20060112123456" := by
  unfold generateInstanceName Split
  by_cases h : '_' ∈ currentName.data
  · have hlen := length_splitChars_of_mem '_' _ h
    obtain ⟨pre, suf, e, hs⟩ := exists_last_sep '_' _ h
    simp only [h, if_true, List.length_map, hlen, if_false]
    have hb : beforeLastUnderscore currentName = String.mk pre := by
      unfold beforeLastUnderscore
      rw [e, beforeLast_append_sep pre suf hs]
    rw [hb, e, splitChars_append_sep '_' pre suf hs]
    have hne := splitChars_ne_nil '_' pre
    apply String.ext
    simp only [Join, List.length_append, List.length_singleton, Nat.add_sub_cancel,
      List.map_append, List.map_map, List.map_cons, List.map_nil, String.data_append]
    rw [List.take_left' (by simp)]
    rw [map_data_map_mk]
    show List.intercalate ['_'] (splitChars '_' pre ++ [_]) = _
    rw [intercalate_append_singleton _ _ _ hne, intercalate_splitChars]
  · have hsp := splitChars_of_not_mem '_' _ h
    simp [h, hsp]
/-! ## The resolver -/

theorem getMatchingInstances_eq {R : Type} (re : String → Bool)
    (vmList : List (VirtualMachine R)) :
    ∀ acc : List (VirtualMachine R), (∀ vm ∈ vmList, vm.Name ≠ none) →
      getMatchingInstances vmList re acc = some (acc ++ vmList.filter (nameMatches re)) := by
  induction vmList with
  | nil => intro acc _; simp [getMatchingInstances]
  | cons vm rest ih =>
    intro acc h
    have hrest : ∀ v ∈ rest, v.Name ≠ none := fun v hv => h v (List.mem_cons_of_mem _ hv)
    cases hn : vm.Name with
    | none => exact absurd hn (h vm (List.mem_cons_self _ _))
    | some name =>
      by_cases hre : re name = true
      · simp [getMatchingInstances, hn, hre, ih _ hrest, nameMatches, List.filter_cons]
      · simp [getMatchingInstances, hn, hre, ih _ hrest, nameMatches, List.filter_cons]

/-- Every call of the listing loop is a next-page fetch. -/
theorem loop_trace_listing {R σ : Type} (s : Client R σ) (re : String → Bool) :
    ∀ (fuel : Nat) (cur : VirtualMachineListResult R) (acc : List (VirtualMachine R)) (st : σ),
      ∀ ev ∈ (getFilteredListLoop s re fuel cur acc st).trace,
        ∃ last, ev.call = .ListAllNextResults last := by
  intro fuel
  induction fuel with
  | zero => intro cur acc st ev hev; simp [getFilteredListLoop] at hev
  | succ fuel ih =>
    intro cur acc st ev hev
    unfold getFilteredListLoop at hev
    cases hv : cur.Value with
    | none => simp [hv] at hev
    | some value =>
      by_cases hlen : value.length > 0
      · cases hm : getMatchingInstances value re acc with
        | none => simp [hv, hlen, hm] at hev
        | some m =>
          rcases hnx : s.VirtualMachinesClient.ListAllNextResults cur st with ⟨⟨next, err⟩, st1⟩
          cases err with
          | some e =>
            simp [hv, hlen, hm, hnx] at hev
            exact ⟨cur, by rw [hev]⟩
          | none =>
            simp [hv, hlen, hm, hnx] at hev
            rcases hev with hev | hev
            · exact ⟨cur, by rw [hev]⟩
            · exact ih _ _ _ ev hev
      · simp [hv, hlen] at hev

/-- A failed fetch ends the listing loop with the error of the fetch, wrapped, and
no list. -/
theorem loop_of_failed_fetch {R σ : Type} (s : Client R σ) (re : String → Bool) :
    ∀ (fuel : Nat) (cur : VirtualMachineListResult R) (acc : List (VirtualMachine R)) (st : σ)
      (ev : Event R) (e : GoError),
      ev ∈ (getFilteredListLoop s re fuel cur acc st).trace → ev.err = some e →
        (getFilteredListLoop s re fuel cur acc st).out =
          .ret (none, some (.withMessage e "ListAllNextResults call failed")) := by
  intro fuel
  induction fuel with
  | zero => intro cur acc st ev e hev _; simp [getFilteredListLoop] at hev
  | succ fuel ih =>
    intro cur acc st ev e hev herr
    unfold getFilteredListLoop at hev ⊢
    cases hv : cur.Value with
    | none => simp [hv] at hev
    | some value =>
      by_cases hlen : value.length > 0
      · cases hm : getMatchingInstances value re acc with
        | none => simp [hv, hlen, hm] at hev
        | some m =>
          rcases hnx : s.VirtualMachinesClient.ListAllNextResults cur st with ⟨⟨next, err⟩, st1⟩
          cases err with
          | some e1 =>
            simp [hv, hlen, hm, hnx] at hev
            rw [hev] at herr
            simp at herr
            simp [hv, hlen, hm, hnx, Wrap, herr]
          | none =>
            simp [hv, hlen, hm, hnx] at hev
            rcases hev with hev | hev
            · rw [hev] at herr; simp at herr
            · have he := ih next m st1 ev e hev herr
              simp [hv, hlen, hm, hnx, he]
      · simp [hv, hlen] at hev

/-- On a finite listing whose pages all fetch, the loop returns the instances
matching the filter, appended to those it already had. -/
theorem loop_of_listing {R σ : Type} (s : Client R σ) (re : String → Bool) :
    ∀ (pages : List (List (VirtualMachine R))) (fuel : Nat)
      (cur : VirtualMachineListResult R) (acc : List (VirtualMachine R)) (st st1 : σ),
      Listing s.VirtualMachinesClient cur st pages st1 →
      (∀ page ∈ pages, ∀ vm ∈ page, vm.Name ≠ none) →
      pages.length < fuel →
      (getFilteredListLoop s re fuel cur acc st).out = .ret (some (acc ++ matched re pages), none) ∧
      (getFilteredListLoop s re fuel cur acc st).st = st1 ∧
      (getFilteredListLoop s re fuel cur acc st).trace.length = pages.length ∧
      ∀ ev ∈ (getFilteredListLoop s re fuel cur acc st).trace, ev.err = none := by
  intro pages
  induction pages with
  | nil =>
    intro fuel cur acc st st1 hl _ hf
    obtain ⟨hv, hst⟩ := hl
    cases fuel with
    | zero => simp at hf
    | succ fuel =>
      unfold getFilteredListLoop
      rcases hv with hv | hv
      · simp [hv, hst, matched]
      · simp [hv, hst, matched]
  | cons page rest ih =>
    intro fuel cur acc st st1 hl hn hf
    obtain ⟨hv, hne, next, st2, hnx, hrest⟩ := hl
    cases fuel with
    | zero => simp at hf
    | succ fuel =>
      have hlen : page.length > 0 := List.length_pos.mpr hne
      have hm := getMatchingInstances_eq re page acc (hn page (List.mem_cons_self _ _))
      have hf1 : rest.length < fuel := by simpa using hf
      obtain ⟨h1, h2, h3, h4⟩ := ih fuel next (acc ++ page.filter (nameMatches re)) st2 st1 hrest
        (fun p hp => hn p (List.mem_cons_of_mem _ hp)) hf1
      unfold getFilteredListLoop
      simp only [hv, hlen, if_true, hm, hnx]
      refine ⟨?_, h2, ?_, ?_⟩
      · rw [h1]; simp [matched, List.append_assoc]
      · simp [h3]
      · intro ev hev
        rcases List.mem_cons.mp hev with e | e
        · rw [e]
        · exact h4 ev e

/-- Every call of the resolver is a listing call. -/
theorem getFilteredList_trace_listing {R σ : Type} (s : Client R σ)
    (compile : String → Option (String → Bool)) (fuel : Nat) (identifier : String) (st : σ) :
    ∀ ev ∈ (getFilteredList s compile fuel identifier st).trace,
      ev.call.isMutating = false ∧ ev.call.capability = .list := by
  intro ev hev
  unfold getFilteredList at hev
  rcases hl : s.VirtualMachinesClient.List s.resourceGroupName st with ⟨⟨first, err⟩, st0⟩
  cases err with
  | some e =>
    simp [hl] at hev
    rw [hev]; exact ⟨rfl, rfl⟩
  | none =>
    cases hc : compile identifier with
    | none =>
      simp [hl, hc] at hev
      rw [hev]; exact ⟨rfl, rfl⟩
    | some re =>
      simp [hl, hc] at hev
      rcases hev with hev | hev
      · rw [hev]; exact ⟨rfl, rfl⟩
      · obtain ⟨last, hlast⟩ := loop_trace_listing s re fuel first [] st0 ev hev
        rw [hlast]; exact ⟨rfl, rfl⟩

/-- A failed list call or next-page fetch makes the resolver return the error of
that call, wrapped, and no list. -/
theorem getFilteredList_of_failed_fetch {R σ : Type} (s : Client R σ)
    (compile : String → Option (String → Bool)) (fuel : Nat) (identifier : String) (st : σ)
    (ev : Event R) (e : GoError)
    (hev : ev ∈ (getFilteredList s compile fuel identifier st).trace) (herr : ev.err = some e) :
    (getFilteredList s compile fuel identifier st).out =
        .ret (none, some (.withMessage e "error in getting list of VMs from azure")) ∨
      (getFilteredList s compile fuel identifier st).out =
        .ret (none, some (.withMessage e "ListAllNextResults call failed")) := by
  unfold getFilteredList at hev ⊢
  rcases hl : s.VirtualMachinesClient.List s.resourceGroupName st with ⟨⟨first, err⟩, st0⟩
  cases err with
  | some e1 =>
    simp [hl] at hev
    rw [hev] at herr
    simp at herr
    left
    simp [hl, Wrap, herr]
  | none =>
    cases hc : compile identifier with
    | none =>
      simp [hl, hc] at hev
      rw [hev] at herr; simp at herr
    | some re =>
      simp [hl, hc] at hev
      rcases hev with hev | hev
      · rw [hev] at herr; simp at herr
      · right
        simp [hl, hc, loop_of_failed_fetch s re fuel first [] st0 ev e hev herr]

/-- On a finite listing whose pages all fetch, the resolver returns the instances
matching the filter, in listing order, after one call per fetch, none of which
failed. -/
theorem getFilteredList_of_resolves {R σ : Type} (s : Client R σ)
    (compile : String → Option (String → Bool)) (fuel : Nat) (identifier : String) (st st1 : σ)
    (pages : List (List (VirtualMachine R))) (re : String → Bool)
    (h : Resolves s compile identifier st pages re st1) (hf : pages.length < fuel) :
    (getFilteredList s compile fuel identifier st).out = .ret (some (matched re pages), none) ∧
    (getFilteredList s compile fuel identifier st).st = st1 ∧
    (getFilteredList s compile fuel identifier st).trace.length = pages.length + 1 ∧
    ∀ ev ∈ (getFilteredList s compile fuel identifier st).trace, ev.err = none := by
  obtain ⟨hc, hn, first, st0, hl, hlist⟩ := h
  obtain ⟨h1, h2, h3, h4⟩ := loop_of_listing s re pages fuel first [] st0 st1 hlist hn hf
  unfold getFilteredList
  simp only [hl, hc]
  refine ⟨by simpa using h1, h2, by simp [h3], ?_⟩
  intro ev hev
  rcases List.mem_cons.mp hev with e | e
  · rw [e]
  · exact h4 ev e

/-! ## `Delete`, `deallocate` and `Replace` after the resolver -/

theorem Delete_of_error {R σ : Type} (s : Client R σ)
    (compile : String → Option (String → Bool)) (fuel : Nat) (identifier : String) (st : σ)
    (l : Option (List (VirtualMachine R))) (e : GoError)
    (h : (getFilteredList s compile fuel identifier st).out = .ret (l, some e)) :
    Delete s compile fuel identifier st =
      ⟨.ret (some (.withMessage e "error when attempting to get filtered vm list")),
        (getFilteredList s compile fuel identifier st).st,
        (getFilteredList s compile fuel identifier st).trace⟩ := by
  simp [Delete, h, Wrap]

theorem Delete_of_none {R σ : Type} (s : Client R σ)
    (compile : String → Option (String → Bool)) (fuel : Nat) (identifier : String) (st : σ)
    (h : (getFilteredList s compile fuel identifier st).out = .ret (some [], none)) :
    Delete s compile fuel identifier st =
      ⟨.ret (some NoMatchesErr),
        (getFilteredList s compile fuel identifier st).st,
        (getFilteredList s compile fuel identifier st).trace⟩ := by
  simp [Delete, h]

theorem Delete_of_many {R σ : Type} (s : Client R σ)
    (compile : String → Option (String → Bool)) (fuel : Nat) (identifier : String) (st : σ)
    (a b : VirtualMachine R) (rest : List (VirtualMachine R))
    (h : (getFilteredList s compile fuel identifier st).out = .ret (some (a :: b :: rest), none)) :
    Delete s compile fuel identifier st =
      ⟨.ret (some MultipleMatchesErr),
        (getFilteredList s compile fuel identifier st).st,
        (getFilteredList s compile fuel identifier st).trace⟩ := by
  simp [Delete, h]

theorem deallocate_of_error {R σ : Type} (s : Client R σ)
    (compile : String → Option (String → Bool)) (fuel : Nat) (identifier : String) (st : σ)
    (l : Option (List (VirtualMachine R))) (e : GoError)
    (h : (getFilteredList s compile fuel identifier st).out = .ret (l, some e)) :
    deallocate s compile fuel identifier st =
      ⟨.ret (none, some (.withMessage e "error when attempting to get filtered vm list")),
        (getFilteredList s compile fuel identifier st).st,
        (getFilteredList s compile fuel identifier st).trace⟩ := by
  simp [deallocate, h, Wrap]

theorem deallocate_of_none {R σ : Type} (s : Client R σ)
    (compile : String → Option (String → Bool)) (fuel : Nat) (identifier : String) (st : σ)
    (h : (getFilteredList s compile fuel identifier st).out = .ret (some [], none)) :
    deallocate s compile fuel identifier st =
      ⟨.ret (none, some NoMatchesErr),
        (getFilteredList s compile fuel identifier st).st,
        (getFilteredList s compile fuel identifier st).trace⟩ := by
  simp [deallocate, h]

theorem deallocate_of_many {R σ : Type} (s : Client R σ)
    (compile : String → Option (String → Bool)) (fuel : Nat) (identifier : String) (st : σ)
    (a b : VirtualMachine R) (rest : List (VirtualMachine R))
    (h : (getFilteredList s compile fuel identifier st).out = .ret (some (a :: b :: rest), none)) :
    deallocate s compile fuel identifier st =
      ⟨.ret (none, some MultipleMatchesErr),
        (getFilteredList s compile fuel identifier st).st,
        (getFilteredList s compile fuel identifier st).trace⟩ := by
  simp [deallocate, h]

theorem deallocate_of_one {R σ : Type} (s : Client R σ)
    (compile : String → Option (String → Bool)) (fuel : Nat) (identifier : String) (st : σ)
    (inst : VirtualMachine R) (name : String)
    (h : (getFilteredList s compile fuel identifier st).out = .ret (some [inst], none))
    (hn : inst.Name = some name) :
    deallocate s compile fuel identifier st =
      ⟨.ret (some inst,
          (s.VirtualMachinesClient.Deallocate s.resourceGroupName name
            (getFilteredList s compile fuel identifier st).st).1),
        (s.VirtualMachinesClient.Deallocate s.resourceGroupName name
            (getFilteredList s compile fuel identifier st).st).2,
        (getFilteredList s compile fuel identifier st).trace ++
          [⟨.Deallocate s.resourceGroupName name,
            (s.VirtualMachinesClient.Deallocate s.resourceGroupName name
              (getFilteredList s compile fuel identifier st).st).1⟩]⟩ := by
  simp [deallocate, h, hn]

/-- When the resolver fails, or finds no or several instances, `Replace` returns
the error of `deallocate`, wrapped, after the calls of the resolver only. -/
theorem Replace_of_deallocate_error {R σ : Type} (s : Client R σ)
    (compile : String → Option (String → Bool)) (now : Time) (fuel : Nat)
    (identifier vhdURL : String) (st st1 : σ) (tr : List (Event R))
    (i : Option (VirtualMachine R)) (e : GoError)
    (h : deallocate s compile fuel identifier st = ⟨.ret (i, some e), st1, tr⟩) :
    Replace s compile now fuel identifier vhdURL st =
      ⟨.ret (some (.withMessage e "error shutting down VM")), st1, tr⟩ := by
  simp [Replace, h, Wrap]

/-! ## The example fleet -/

theorem fleet_resolves (d c e : Option GoError) (identifier : String)
    (h : literalCompile identifier = some (literalFilter identifier)) :
    Resolves (clientOf (fleet d c e)) literalCompile identifier 0
      (fleet d c e).pages (literalFilter identifier) 3 where
  compiles := h
  named := by
    intro page hp vm hv
    simp [fleet] at hp
    rcases hp with hp | hp
    · subst hp
      simp at hv
      rcases hv with hv | hv <;> subst hv <;> simp [vmNamed]
    · subst hp
      simp at hv
      subst hv
      simp [vmNamed]
  lists :=
    ⟨(fleet d c e).page 0, 1, rfl, rfl, by simp,
      (fleet d c e).page 1, 2, rfl, rfl, by simp,
      (fleet d c e).page 2, 3, rfl, Or.inl rfl, rfl⟩

/-! ## Properties of the resolver and of the cardinality policy -/

/-- C6: on a backend whose listing is a finite sequence of pages that all fetch
successfully, the resolver returns, with a nil error and whatever their number,
exactly the instances of those pages whose name matches the filter, in listing
order: an instance is returned if and only if it is listed and its name matches. -/
theorem getFilteredList_returns_all_matches {R σ : Type} (s : Client R σ)
    (compile : String → Option (String → Bool)) (fuel : Nat) (identifier : String) (st st1 : σ)
    (pages : List (List (VirtualMachine R))) (re : String → Bool)
    (h : Resolves s compile identifier st pages re st1) (hf : pages.length < fuel) :
    (getFilteredList s compile fuel identifier st).out =
        .ret (some (pages.flatten.filter (nameMatches re)), none) ∧
      (pages.flatten.filter (nameMatches re)).Sublist pages.flatten ∧
      ∀ vm, vm ∈ pages.flatten.filter (nameMatches re) ↔
        (∃ page ∈ pages, vm ∈ page) ∧ ∃ name, vm.Name = some name ∧ re name = true := by
  refine ⟨(getFilteredList_of_resolves s compile fuel identifier st st1 pages re h hf).1,
    List.filter_sublist _, ?_⟩
  intro vm
  rw [List.mem_filter, List.mem_flatten]
  constructor
  · rintro ⟨⟨page, hp, hv⟩, hm⟩
    refine ⟨⟨page, hp, hv⟩, ?_⟩
    unfold nameMatches at hm
    cases hn : vm.Name with
    | none => simp [hn] at hm
    | some name => exact ⟨name, rfl, by simpa [hn] using hm⟩
  · rintro ⟨⟨page, hp, hv⟩, name, hn, hre⟩
    exact ⟨⟨page, hp, hv⟩, by simp [nameMatches, hn, hre]⟩

/-- Witness of C6: the filter `web` on the example fleet returns `web_1` and
`web_2`, which sit on different pages. -/
theorem getFilteredList_returns_all_matches_witness :
    (getFilteredList (clientOf (fleet none none none)) literalCompile 3 "web" 0).out =
      .ret (some [vmNamed "web_1" "old.vhd", vmNamed "web_2" "old.vhd"], none) :=
  (getFilteredList_returns_all_matches (clientOf (fleet none none none)) literalCompile 3 "web"
    0 3 (fleet none none none).pages (literalFilter "web")
    (fleet_resolves none none none "web" rfl) (by decide)).1

/-- C1: when the filter matches two or more instances of the backend listing,
`Delete` returns `MultipleMatchesErr`, `Replace` returns `MultipleMatchesErr`
wrapped with its context (so that its cause is `MultipleMatchesErr`), and neither
issues a mutating call (`Deallocate`, `Delete`, `CreateOrUpdate`). -/
theorem ambiguous_match_fails_without_mutation {R σ : Type} (s : Client R σ)
    (compile : String → Option (String → Bool)) (now : Time) (fuel : Nat)
    (identifier vhdURL : String) (st st1 : σ)
    (pages : List (List (VirtualMachine R))) (re : String → Bool)
    (h : Resolves s compile identifier st pages re st1) (hf : pages.length < fuel)
    (hcount : 2 ≤ (matched re pages).length) :
    (Delete s compile fuel identifier st).out = .ret (some MultipleMatchesErr) ∧
    (∀ ev ∈ (Delete s compile fuel identifier st).trace, ev.call.isMutating = false) ∧
    (Replace s compile now fuel identifier vhdURL st).out =
      .ret (some (.withMessage MultipleMatchesErr "error shutting down VM")) ∧
    Cause (.withMessage MultipleMatchesErr "error shutting down VM") = MultipleMatchesErr ∧
    (∀ ev ∈ (Replace s compile now fuel identifier vhdURL st).trace,
      ev.call.isMutating = false) := by
  have hout := (getFilteredList_of_resolves s compile fuel identifier st st1 pages re h hf).1
  have htr := getFilteredList_trace_listing s compile fuel identifier st
  match hm : matched re pages, hcount with
  | a :: b :: rest, _ =>
    rw [hm] at hout
    have hD := Delete_of_many s compile fuel identifier st a b rest hout
    have hd := deallocate_of_many s compile fuel identifier st a b rest hout
    have hR := Replace_of_deallocate_error s compile now fuel identifier vhdURL st _ _ _ _ hd
    refine ⟨by rw [hD], ?_, by rw [hR], rfl, ?_⟩
    · rw [hD]; exact fun ev hev => (htr ev hev).1
    · rw [hR]; exact fun ev hev => (htr ev hev).1

/-- Witness of C1: the filter `web` matches two instances of the example fleet. -/
theorem ambiguous_match_fails_without_mutation_witness :
    (Delete (clientOf (fleet none none none)) literalCompile 3 "web" 0).out =
      .ret (some MultipleMatchesErr) :=
  (ambiguous_match_fails_without_mutation (clientOf (fleet none none none)) literalCompile
    ⟨2017, 3, 5, 14, 7, 9⟩ 3 "web" "new.vhd" 0 3 (fleet none none none).pages
    (literalFilter "web") (fleet_resolves none none none "web" rfl) (by decide) (by decide)).1

/-- C2: when the filter matches no instance of the backend listing, `Delete`
returns `NoMatchesErr`, `Replace` returns `NoMatchesErr` wrapped with its context
(so that its cause is `NoMatchesErr`), and neither issues a mutating call
(`Deallocate`, `Delete`, `CreateOrUpdate`). -/
theorem no_match_fails_without_mutation {R σ : Type} (s : Client R σ)
    (compile : String → Option (String → Bool)) (now : Time) (fuel : Nat)
    (identifier vhdURL : String) (st st1 : σ)
    (pages : List (List (VirtualMachine R))) (re : String → Bool)
    (h : Resolves s compile identifier st pages re st1) (hf : pages.length < fuel)
    (hcount : (matched re pages).length = 0) :
    (Delete s compile fuel identifier st).out = .ret (some NoMatchesErr) ∧
    (∀ ev ∈ (Delete s compile fuel identifier st).trace, ev.call.isMutating = false) ∧
    (Replace s compile now fuel identifier vhdURL st).out =
      .ret (some (.withMessage NoMatchesErr "error shutting down VM")) ∧
    Cause (.withMessage NoMatchesErr "error shutting down VM") = NoMatchesErr ∧
    (∀ ev ∈ (Replace s compile now fuel identifier vhdURL st).trace,
      ev.call.isMutating = false) := by
  have hout := (getFilteredList_of_resolves s compile fuel identifier st st1 pages re h hf).1
  have htr := getFilteredList_trace_listing s compile fuel identifier st
  rw [List.length_eq_zero.mp hcount] at hout
  have hD := Delete_of_none s compile fuel identifier st hout
  have hd := deallocate_of_none s compile fuel identifier st hout
  have hR := Replace_of_deallocate_error s compile now fuel identifier vhdURL st _ _ _ _ hd
  refine ⟨by rw [hD], ?_, by rw [hR], rfl, ?_⟩
  · rw [hD]; exact fun ev hev => (htr ev hev).1
  · rw [hR]; exact fun ev hev => (htr ev hev).1

/-- Witness of C2: the filter `cache` matches no instance of the example fleet. -/
theorem no_match_fails_without_mutation_witness :
    (Delete (clientOf (fleet none none none)) literalCompile 3 "cache" 0).out =
      .ret (some NoMatchesErr) :=
  (no_match_fails_without_mutation (clientOf (fleet none none none)) literalCompile
    ⟨2017, 3, 5, 14, 7, 9⟩ 3 "cache" "new.vhd" 0 3 (fleet none none none).pages
    (literalFilter "cache") (fleet_resolves none none none "cache" rfl) (by decide)
    (by decide)).1

/-! ## `Replace` on a single match -/

theorem assignImageURI_spec {R : Type} (a b : VirtualMachine R) (vhdURL : String)
    (h : assignImageURI a vhdURL = some b) :
    b.Name = a.Name ∧ imageURI b = some vhdURL ∧ SameExceptNameAndImage a b := by
  unfold assignImageURI at h
  cases hp : a.VirtualMachineProperties with
  | none => simp [hp] at h
  | some props =>
    cases hs : props.StorageProfile with
    | none => simp [hp, hs] at h
    | some sp =>
      cases ho : sp.OsDisk with
      | none => simp [hp, hs, ho] at h
      | some od =>
        cases hi : od.Image with
        | none => simp [hp, hs, ho, hi] at h
        | some img =>
          simp only [hp, hs, ho, hi, Option.some.injEq] at h
          subst h
          refine ⟨rfl, by simp [imageURI], rfl, ?_⟩
          exact ⟨props, _, hp, rfl, rfl, sp, _, hs, rfl, rfl, od, _, ho, rfl, rfl,
            img, _, hi, rfl, rfl⟩

theorem assignImageURI_rename {R : Type} (a : VirtualMachine R) (n : Option String)
    (vhdURL : String) (h : assignImageURI a vhdURL ≠ none) :
    assignImageURI { a with Name := n } vhdURL ≠ none := by
  unfold assignImageURI at h ⊢
  cases hp : a.VirtualMachineProperties with
  | none => simp [hp] at h
  | some props =>
    cases hs : props.StorageProfile with
    | none => simp [hp, hs] at h
    | some sp =>
      cases ho : sp.OsDisk with
      | none => simp [hp, hs, ho] at h
      | some od =>
        cases hi : od.Image with
        | none => simp [hp, hs, ho, hi] at h
        | some img => simp [hp, hs, ho, hi]

/-- What `Replace` does once the resolver has returned a single instance. -/
theorem Replace_of_one {R σ : Type} (s : Client R σ)
    (compile : String → Option (String → Bool)) (now : Time) (fuel : Nat)
    (identifier vhdURL : String) (st : σ) (inst : VirtualMachine R) (name : String)
    (h : (getFilteredList s compile fuel identifier st).out = .ret (some [inst], none))
    (hn : inst.Name = some name) :
    Replace s compile now fuel identifier vhdURL st =
      match s.VirtualMachinesClient.Deallocate s.resourceGroupName name
          (getFilteredList s compile fuel identifier st).st with
      | (some e, st2) =>
        ⟨.ret (some (.withMessage e "error shutting down VM")), st2,
          (getFilteredList s compile fuel identifier st).trace ++
            [⟨.Deallocate s.resourceGroupName name, some e⟩]⟩
      | (none, st2) =>
        match assignImageURI { inst with Name := some (generateInstanceName now name) } vhdURL with
        | none =>
          ⟨.panic, st2, (getFilteredList s compile fuel identifier st).trace ++
            [⟨.Deallocate s.resourceGroupName name, none⟩]⟩
        | some tmpl =>
          ⟨.ret (s.VirtualMachinesClient.CreateOrUpdate s.resourceGroupName
              (generateInstanceName now name) tmpl st2).1,
            (s.VirtualMachinesClient.CreateOrUpdate s.resourceGroupName
              (generateInstanceName now name) tmpl st2).2,
            (getFilteredList s compile fuel identifier st).trace ++
              [⟨.Deallocate s.resourceGroupName name, none⟩,
               ⟨.CreateOrUpdate s.resourceGroupName (generateInstanceName now name) tmpl,
                (s.VirtualMachinesClient.CreateOrUpdate s.resourceGroupName
                  (generateInstanceName now name) tmpl st2).1⟩]⟩ := by
  have hd := deallocate_of_one s compile fuel identifier st inst name h hn
  rcases hde : s.VirtualMachinesClient.Deallocate s.resourceGroupName name
    (getFilteredList s compile fuel identifier st).st with ⟨err, st2⟩
  rw [hde] at hd
  cases err with
  | some e => simp [Replace, hd, Wrap]
  | none =>
    cases ha : assignImageURI { inst with Name := some (generateInstanceName now name) } vhdURL with
    | none => simp [Replace, hd, hn, ha]
    | some tmpl => simp [Replace, hd, hn, ha]

/-! ## Failure of the stop step, and failure of the listing -/

/-- C5: when the filter matches exactly one instance and the backend call
`Deallocate` returns an error, `Replace` returns that error wrapped with its
context, and the failed `Deallocate` is the only mutating call of the run:
`CreateOrUpdate` is not invoked and no restart, delete or other rollback call is
issued. -/
theorem failed_stop_creates_nothing {R σ : Type} (s : Client R σ)
    (compile : String → Option (String → Bool)) (now : Time) (fuel : Nat)
    (identifier vhdURL : String) (st st1 st2 : σ)
    (pages : List (List (VirtualMachine R))) (re : String → Bool)
    (inst : VirtualMachine R) (name : String) (e : GoError)
    (h : Resolves s compile identifier st pages re st1) (hf : pages.length < fuel)
    (hone : matched re pages = [inst]) (hname : inst.Name = some name)
    (hstop : s.VirtualMachinesClient.Deallocate s.resourceGroupName name st1 = (some e, st2)) :
    (Replace s compile now fuel identifier vhdURL st).out =
      .ret (some (.withMessage e "error shutting down VM")) ∧
    (Replace s compile now fuel identifier vhdURL st).trace =
      (getFilteredList s compile fuel identifier st).trace ++
        [⟨.Deallocate s.resourceGroupName name, some e⟩] ∧
    (∀ ev ∈ (Replace s compile now fuel identifier vhdURL st).trace,
      ev.call.capability ≠ .create ∧ ev.call.capability ≠ .delete) ∧
    (∀ ev ∈ (Replace s compile now fuel identifier vhdURL st).trace,
      ev.call.isMutating = true → ev = ⟨.Deallocate s.resourceGroupName name, some e⟩) := by
  obtain ⟨hout, hst, _, _⟩ :=
    getFilteredList_of_resolves s compile fuel identifier st st1 pages re h hf
  rw [hone] at hout
  have htr := getFilteredList_trace_listing s compile fuel identifier st
  have hR := Replace_of_one s compile now fuel identifier vhdURL st inst name hout hname
  rw [hst, hstop] at hR
  simp only at hR
  rw [hR]
  refine ⟨rfl, rfl, ?_, ?_⟩
  · intro ev hev
    rcases List.mem_append.mp hev with hev | hev
    · rw [(htr ev hev).2]; simp
    · rw [List.mem_singleton.mp hev]; simp [Call.capability]
  · intro ev hev hmut
    rcases List.mem_append.mp hev with hev | hev
    · rw [(htr ev hev).1] at hmut; simp at hmut
    · exact List.mem_singleton.mp hev

/-- Witness of C5: replacing `db` on the example fleet when `Deallocate` fails. -/
theorem failed_stop_creates_nothing_witness :
    (Replace (clientOf (fleet (some (.external "deallocate failed")) none none)) literalCompile
      ⟨2017, 3, 5, 14, 7, 9⟩ 3 "db" "new.vhd" 0).out =
      .ret (some (.withMessage (.external "deallocate failed") "error shutting down VM")) :=
  (failed_stop_creates_nothing (clientOf (fleet (some (.external "deallocate failed")) none none))
    literalCompile ⟨2017, 3, 5, 14, 7, 9⟩ 3 "db" "new.vhd" 0 3 3
    (fleet (some (.external "deallocate failed")) none none).pages (literalFilter "db")
    (vmNamed "db_1" "old.vhd") "db_1" (.external "deallocate failed")
    (fleet_resolves _ none none "db" rfl) (by decide) (by decide) rfl rfl).1

/-- C7: when the list call or a next-page fetch of the resolver fails, the
resolver returns the error of that call, wrapped, and a nil list, whatever the
pages fetched before; `Delete` and `Replace` then return an error whose cause is
that of the failed call, and issue no mutating call. -/
theorem failed_fetch_fails_everything {R σ : Type} (s : Client R σ)
    (compile : String → Option (String → Bool)) (now : Time) (fuel : Nat)
    (identifier vhdURL : String) (st : σ) (ev : Event R) (e : GoError)
    (hev : ev ∈ (getFilteredList s compile fuel identifier st).trace)
    (herr : ev.err = some e) :
    ((getFilteredList s compile fuel identifier st).out =
        .ret (none, some (.withMessage e "error in getting list of VMs from azure")) ∨
      (getFilteredList s compile fuel identifier st).out =
        .ret (none, some (.withMessage e "ListAllNextResults call failed"))) ∧
    (∃ e1, (Delete s compile fuel identifier st).out = .ret (some e1) ∧ Cause e1 = Cause e) ∧
    (∀ ev1 ∈ (Delete s compile fuel identifier st).trace, ev1.call.isMutating = false) ∧
    (∃ e1, (Replace s compile now fuel identifier vhdURL st).out = .ret (some e1) ∧
      Cause e1 = Cause e) ∧
    (∀ ev1 ∈ (Replace s compile now fuel identifier vhdURL st).trace,
      ev1.call.isMutating = false) := by
  have hout := getFilteredList_of_failed_fetch s compile fuel identifier st ev e hev herr
  have htr := getFilteredList_trace_listing s compile fuel identifier st
  refine ⟨hout, ?_⟩
  rcases hout with hout | hout
  all_goals
    have hD := Delete_of_error s compile fuel identifier st _ _ hout
    have hd := deallocate_of_error s compile fuel identifier st _ _ hout
    have hR := Replace_of_deallocate_error s compile now fuel identifier vhdURL st _ _ _ _ hd
    rw [hD, hR]
    exact ⟨⟨_, rfl, rfl⟩, fun ev1 h1 => (htr ev1 h1).1, ⟨_, rfl, rfl⟩,
      fun ev1 h1 => (htr ev1 h1).1⟩

/-- Witness of C7: the fetch of the second page of the example fleet fails; the
matches of the first page are not returned. -/
theorem failed_fetch_fails_everything_witness :
    (getFilteredList (clientOf brokenFleet) literalCompile 3 "web" 0).out =
        .ret (none, some (.withMessage (.external "next page failed")
          "error in getting list of VMs from azure")) ∨
      (getFilteredList (clientOf brokenFleet) literalCompile 3 "web" 0).out =
        .ret (none, some (.withMessage (.external "next page failed")
          "ListAllNextResults call failed")) :=
  (failed_fetch_fails_everything (clientOf brokenFleet) literalCompile
    ⟨2017, 3, 5, 14, 7, 9⟩ 3 "web" "new.vhd" 0
    ⟨.ListAllNextResults (brokenFleet.page 0), some (.external "next page failed")⟩
    (.external "next page failed") (by decide) rfl).1

/-! ## The calls of a successful `Replace` -/

/-- Counterexample to C3: replacing `db` on the example fleet, where every call
succeeds, issues three listing calls, then `Deallocate` and `CreateOrUpdate`; it
never waits for a state, so the calls are not stop, wait for `stopped`, create,
wait for `running`, even when the listing calls are left out. -/
theorem Replace_calls_counterexample :
    (Replace (clientOf (fleet none none none)) literalCompile
      ⟨2017, 3, 5, 14, 7, 9⟩ 3 "db" "new.vhd" 0).out = .ret none ∧
    (Replace (clientOf (fleet none none none)) literalCompile
      ⟨2017, 3, 5, 14, 7, 9⟩ 3 "db" "new.vhd" 0).trace.map (fun ev => ev.call.capability) =
      [.list, .list, .list, .stop, .create] ∧
    ((Replace (clientOf (fleet none none none)) literalCompile
      ⟨2017, 3, 5, 14, 7, 9⟩ 3 "db" "new.vhd" 0).trace.filter
        (fun ev => ev.call.isMutating)).map (fun ev => ev.call.capability) ≠
      [.stop, .waitForStatus "stopped", .create, .waitForStatus "running"] ∧
    (Replace (clientOf (fleet none none none)) literalCompile
      ⟨2017, 3, 5, 14, 7, 9⟩ 3 "db" "new.vhd" 0).trace.map (fun ev => ev.call.capability) ≠
      [.stop, .waitForStatus "stopped", .create, .waitForStatus "running"] := by
  decide

/-- C3, amended: when the filter matches exactly one instance, that instance has
an OS disk image, and `Deallocate` and `CreateOrUpdate` succeed, `Replace`
returns nil and issues, after the listing calls of the resolver and in this
order, `Deallocate` of the matched instance and `CreateOrUpdate` of the new one,
and no other call; it issues no call that waits for a state. -/
theorem Replace_calls {R σ : Type} (s : Client R σ)
    (compile : String → Option (String → Bool)) (now : Time) (fuel : Nat)
    (identifier vhdURL : String) (st st1 st2 st3 : σ)
    (pages : List (List (VirtualMachine R))) (re : String → Bool)
    (inst tmpl : VirtualMachine R) (name : String)
    (h : Resolves s compile identifier st pages re st1) (hf : pages.length < fuel)
    (hone : matched re pages = [inst]) (hname : inst.Name = some name)
    (hstop : s.VirtualMachinesClient.Deallocate s.resourceGroupName name st1 = (none, st2))
    (himg : assignImageURI { inst with Name := some (generateInstanceName now name) } vhdURL =
      some tmpl)
    (hcreate : s.VirtualMachinesClient.CreateOrUpdate s.resourceGroupName
      (generateInstanceName now name) tmpl st2 = (none, st3)) :
    (Replace s compile now fuel identifier vhdURL st).out = .ret none ∧
    (Replace s compile now fuel identifier vhdURL st).trace =
      (getFilteredList s compile fuel identifier st).trace ++
        [⟨.Deallocate s.resourceGroupName name, none⟩,
         ⟨.CreateOrUpdate s.resourceGroupName (generateInstanceName now name) tmpl, none⟩] ∧
    (∀ ev ∈ (getFilteredList s compile fuel identifier st).trace,
      ev.call.capability = .list ∧ ev.err = none) ∧
    ((Replace s compile now fuel identifier vhdURL st).trace.filter
      (fun ev => ev.call.isMutating)).map (fun ev => ev.call.capability) = [.stop, .create] ∧
    (∀ ev ∈ (Replace s compile now fuel identifier vhdURL st).trace,
      ∀ target, ev.call.capability ≠ .waitForStatus target) := by
  obtain ⟨hout, hst, _, hok⟩ :=
    getFilteredList_of_resolves s compile fuel identifier st st1 pages re h hf
  rw [hone] at hout
  have htr := getFilteredList_trace_listing s compile fuel identifier st
  have hR := Replace_of_one s compile now fuel identifier vhdURL st inst name hout hname
  rw [hst, hstop] at hR
  simp only [himg, hcreate] at hR
  rw [hR]
  refine ⟨rfl, rfl, fun ev hev => ⟨(htr ev hev).2, hok ev hev⟩, ?_, ?_⟩
  · have hnone : (getFilteredList s compile fuel identifier st).trace.filter
        (fun ev => ev.call.isMutating) = [] := by
      rw [List.filter_eq_nil_iff]
      intro ev hev
      simp [(htr ev hev).1]
    rw [List.filter_append, hnone]
    rfl
  · intro ev hev target
    cases hc : ev.call <;> simp [Call.capability]

/-- Witness of C3, amended: replacing `db` on the example fleet. -/
theorem Replace_calls_witness :
    (Replace (clientOf (fleet none none none)) literalCompile
      ⟨2017, 3, 5, 14, 7, 9⟩ 3 "db" "new.vhd" 0).out = .ret none :=
  (Replace_calls (clientOf (fleet none none none)) literalCompile
    ⟨2017, 3, 5, 14, 7, 9⟩ 3 "db" "new.vhd" 0 3 3 3
    (fleet none none none).pages (literalFilter "db")
    (vmNamed "db_1" "old.vhd")
    { Name := some "db_20170335352796",
      VirtualMachineProperties := (vmNamed "db_1" "new.vhd").VirtualMachineProperties,
      rest := (vmNamed "db_1" "old.vhd").rest }
    "db_1"
    (fleet_resolves none none none "db" rfl) (by decide) (by decide) rfl rfl (by decide) rfl).1

/-! ## The template of the new instance -/

/-- C4: when the filter matches exactly one instance, every `CreateOrUpdate` call
of `Replace` is addressed to the name derived from the matched name, and its
template has that derived name, the given image reference, and otherwise the
fields of the matched instance as it was listed before the stop; and the call is
made whenever `Deallocate` succeeds on an instance that has an OS disk image. -/
theorem Replace_template {R σ : Type} (s : Client R σ)
    (compile : String → Option (String → Bool)) (now : Time) (fuel : Nat)
    (identifier vhdURL : String) (st st1 : σ)
    (pages : List (List (VirtualMachine R))) (re : String → Bool)
    (inst : VirtualMachine R)
    (h : Resolves s compile identifier st pages re st1) (hf : pages.length < fuel)
    (hone : matched re pages = [inst]) :
    (∀ ev ∈ (Replace s compile now fuel identifier vhdURL st).trace,
      ∀ rg vmName parameters, ev.call = .CreateOrUpdate rg vmName parameters →
        ∃ name, inst.Name = some name ∧ vmName = generateInstanceName now name ∧
          rg = s.resourceGroupName ∧ parameters.Name = some vmName ∧
          imageURI parameters = some vhdURL ∧ SameExceptNameAndImage inst parameters) ∧
    (∀ name st2, inst.Name = some name →
      s.VirtualMachinesClient.Deallocate s.resourceGroupName name st1 = (none, st2) →
      assignImageURI inst vhdURL ≠ none →
        ∃ ev ∈ (Replace s compile now fuel identifier vhdURL st).trace, ∃ parameters,
          ev.call = .CreateOrUpdate s.resourceGroupName (generateInstanceName now name)
            parameters) := by
  obtain ⟨hout, hst, _, _⟩ :=
    getFilteredList_of_resolves s compile fuel identifier st st1 pages re h hf
  rw [hone] at hout
  have htr := getFilteredList_trace_listing s compile fuel identifier st
  have hmem : inst ∈ pages.flatten := by
    have : inst ∈ matched re pages := by rw [hone]; exact List.mem_singleton_self _
    exact (List.mem_filter.mp this).1
  obtain ⟨page, hp, hv⟩ := List.mem_flatten.mp hmem
  cases hn : inst.Name with
  | none => exact absurd hn (h.named page hp inst hv)
  | some name =>
    have hR := Replace_of_one s compile now fuel identifier vhdURL st inst name hout hn
    rw [hst] at hR
    rcases hde : s.VirtualMachinesClient.Deallocate s.resourceGroupName name st1 with ⟨err, st2⟩
    rw [hde] at hR
    constructor
    · intro ev hev rg vmName parameters hcall
      cases err with
      | some e =>
        simp only at hR
        rw [hR] at hev
        rcases List.mem_append.mp hev with hev | hev
        · have := (htr ev hev).1
          rw [hcall] at this
          simp [Call.isMutating] at this
        · rw [List.mem_singleton.mp hev] at hcall
          simp at hcall
      | none =>
        cases ha : assignImageURI { inst with Name := some (generateInstanceName now name) }
            vhdURL with
        | none =>
          simp only [ha] at hR
          rw [hR] at hev
          rcases List.mem_append.mp hev with hev | hev
          · have := (htr ev hev).1
            rw [hcall] at this
            simp [Call.isMutating] at this
          · rw [List.mem_singleton.mp hev] at hcall
            simp at hcall
        | some tmpl =>
          simp only [ha] at hR
          rw [hR] at hev
          obtain ⟨h1, h2, h3⟩ := assignImageURI_spec _ _ _ ha
          rcases List.mem_append.mp hev with hev | hev
          · have := (htr ev hev).1
            rw [hcall] at this
            simp [Call.isMutating] at this
          · simp only [List.mem_cons, List.mem_singleton, List.not_mem_nil, or_false] at hev
            rcases hev with hev | hev
            · rw [hev] at hcall
              simp at hcall
            · rw [hev] at hcall
              simp only [Call.CreateOrUpdate.injEq] at hcall
              obtain ⟨e1, e2, e3⟩ := hcall
              subst e1 e2 e3
              exact ⟨name, rfl, rfl, rfl, h1, h2, h3⟩
    · intro name1 st3 hn1 hde1 himg
      have e : name = name1 := by simpa using hn1
      subst e
      rw [hde] at hde1
      have e1 : err = none := by simpa using congrArg Prod.fst hde1
      subst e1
      have hne := assignImageURI_rename inst (some (generateInstanceName now name)) vhdURL himg
      cases ha : assignImageURI { inst with Name := some (generateInstanceName now name) }
          vhdURL with
      | none => exact absurd ha hne
      | some tmpl =>
        simp only [ha] at hR
        rw [hR]
        exact ⟨_, List.mem_append_right _ (List.mem_cons_of_mem _ (List.mem_singleton_self _)),
          tmpl, rfl⟩

/-- Witness of C4: replacing `db` on the example fleet; the template of the create
call is `db_1` as listed, renamed and with the new image. -/
theorem Replace_template_witness :
    ∃ name, (vmNamed "db_1" "old.vhd").Name = some name ∧
      "db_20170335352796" = generateInstanceName ⟨2017, 3, 5, 14, 7, 9⟩ name ∧
      "rg" = (clientOf (fleet none none none)).resourceGroupName ∧
      (VirtualMachine.mk (some "db_20170335352796")
        (vmNamed "db_1" "new.vhd").VirtualMachineProperties
        (vmNamed "db_1" "old.vhd").rest).Name = some "db_20170335352796" ∧
      imageURI (VirtualMachine.mk (some "db_20170335352796")
        (vmNamed "db_1" "new.vhd").VirtualMachineProperties
        (vmNamed "db_1" "old.vhd").rest) = some "new.vhd" ∧
      SameExceptNameAndImage (vmNamed "db_1" "old.vhd")
        (VirtualMachine.mk (some "db_20170335352796")
          (vmNamed "db_1" "new.vhd").VirtualMachineProperties
          (vmNamed "db_1" "old.vhd").rest) :=
  (Replace_template (clientOf (fleet none none none)) literalCompile
    ⟨2017, 3, 5, 14, 7, 9⟩ 3 "db" "new.vhd" 0 3
    (fleet none none none).pages (literalFilter "db") (vmNamed "db_1" "old.vhd")
    (fleet_resolves none none none "db" rfl) (by decide) (by decide)).1
    ⟨.CreateOrUpdate "rg" "db_20170335352796"
      (VirtualMachine.mk (some "db_20170335352796")
        (vmNamed "db_1" "new.vhd").VirtualMachineProperties
        (vmNamed "db_1" "old.vhd").rest), none⟩
    (by decide) "rg" "db_20170335352796" _ rfl

/-! ## Uniqueness of the derived name -/

/-- C9, at the failing input: the layout `20060112123456` is read by
`time.Format` as year, padded month, month, day, month, day, hour on the 12-hour
clock, minute, second (none of the last six padded) and a literal `6`. Two
instants of the same day twelve hours apart, and two instants 10 minutes and 40
seconds apart, yield the same derived name. -/
theorem generateInstanceName_collision :
    (Time.mk 2017 3 5 2 7 9).Valid ∧ (Time.mk 2017 3 5 14 7 9).Valid ∧
    (Time.mk 2017 3 5 2 7 9).secondOfDay + 43200 = (Time.mk 2017 3 5 14 7 9).secondOfDay ∧
    generateInstanceName (Time.mk 2017 3 5 2 7 9) "vm_1" = "vm_20170335352796" ∧
    generateInstanceName (Time.mk 2017 3 5 14 7 9) "vm_1" = "vm_20170335352796" ∧
    (Time.mk 2017 3 5 14 1 23).Valid ∧ (Time.mk 2017 3 5 14 12 3).Valid ∧
    (Time.mk 2017 3 5 14 1 23).secondOfDay + 640 = (Time.mk 2017 3 5 14 12 3).secondOfDay ∧
    generateInstanceName (Time.mk 2017 3 5 14 1 23) "vm_1" =
      generateInstanceName (Time.mk 2017 3 5 14 12 3) "vm_1" := by
  decide

/-! ## Validation of the credentials -/

theorem checkEnvVarLoop_eq (envVars : List (String × String)) :
    ∀ acc : List String, checkEnvVarLoop envVars acc = acc ++ emptyKeys envVars := by
  induction envVars with
  | nil => intro acc; simp [checkEnvVarLoop, emptyKeys]
  | cons kv rest ih =>
    intro acc
    obtain ⟨varName, value⟩ := kv
    by_cases hv : value = ""
    · subst hv
      simp [checkEnvVarLoop, ih, emptyKeys, List.filter_cons]
    · simp only [checkEnvVarLoop, hv, if_false, ih]
      simp [emptyKeys, List.filter_cons, hv]

theorem mem_emptyKeys (envVars : List (String × String)) (k : String) :
    k ∈ emptyKeys envVars ↔ (k, "") ∈ envVars := by
  unfold emptyKeys
  simp only [List.mem_map, List.mem_filter, decide_eq_true_eq]
  constructor
  · rintro ⟨⟨a, b⟩, ⟨hin, hb⟩, ha⟩
    simp only at hb ha
    subst hb ha
    exact hin
  · intro h
    exact ⟨(k, ""), ⟨h, rfl⟩, rfl⟩

theorem checkEnvVar_eq (envVars : List (String × String)) :
    checkEnvVar envVars =
      if (emptyKeys envVars).length > 0 then
        some (.errorf ("Missing environment variables [" ++
          " ".intercalate (emptyKeys envVars) ++ "]"))
      else none := by
  unfold checkEnvVar
  simp only [checkEnvVarLoop_eq, List.nil_append, fmtStrings]
  split
  · congr 2
  · rfl

theorem emptyKeys_length_pos (envVars : List (String × String)) :
    (emptyKeys envVars).length > 0 ↔ ∃ kv ∈ envVars, kv.2 = "" := by
  constructor
  · intro h
    obtain ⟨k, hk⟩ := List.exists_mem_of_length_pos h
    exact ⟨(k, ""), (mem_emptyKeys envVars k).mp hk, rfl⟩
  · rintro ⟨⟨a, b⟩, hin, hb⟩
    simp only at hb
    subst hb
    exact List.length_pos_of_mem ((mem_emptyKeys envVars a).mpr hin)

theorem credentials_keys_nodup (subscriptionID clientID clientSecret tenantID : String) :
    (emptyKeys (credentials subscriptionID clientID clientSecret tenantID)).Nodup := by
  have hsub : (emptyKeys (credentials subscriptionID clientID clientSecret tenantID)).Sublist
      ((credentials subscriptionID clientID clientSecret tenantID).map Prod.fst) :=
    (List.filter_sublist _).map Prod.fst
  exact hsub.nodup (by simp [credentials])

/-- C10: `checkEnvVar` returns nil exactly when every value of the map is
non-empty, and otherwise the error whose text is `Missing environment variables`
followed by the bracketed, space-separated list of exactly the keys whose value
is empty; in `NewClient` the check fails exactly when the client ID, the client
secret, the subscription ID or the tenant ID is empty, the text of the error then
names each empty credential once and no other, and `NewClient` returns that
error, wrapped with its context, and no client. -/
theorem credential_validation {R σ Token : Type}
    (rangeOrder : List (String × String) → List (String × String))
    (NewServicePrincipalTokenFromCredentials :
      List (String × String) → String → Token × Option GoError)
    (NewVirtualMachinesClient : String → Token → ComputeVirtualMachinesClient R σ)
    (subscriptionID clientID clientSecret tenantID resourceGroupName
      resourceManagerEndpoint : String)
    (envVars : List (String × String))
    (hperm : (rangeOrder (credentials subscriptionID clientID clientSecret tenantID)).Perm
      (credentials subscriptionID clientID clientSecret tenantID)) :
    (checkEnvVar envVars = none ↔ ∀ kv ∈ envVars, kv.2 ≠ "") ∧
    ((∃ kv ∈ envVars, kv.2 = "") →
      checkEnvVar envVars = some (.errorf ("Missing environment variables [" ++
        " ".intercalate (emptyKeys envVars) ++ "]"))) ∧
    (∀ k, k ∈ emptyKeys envVars ↔ (k, "") ∈ envVars) ∧
    (checkEnvVar (rangeOrder (credentials subscriptionID clientID clientSecret tenantID)) ≠ none ↔
      clientID = "" ∨ clientSecret = "" ∨ subscriptionID = "" ∨ tenantID = "") ∧
    (clientID = "" ∨ clientSecret = "" ∨ subscriptionID = "" ∨ tenantID = "" →
      checkEnvVar (rangeOrder (credentials subscriptionID clientID clientSecret tenantID)) =
        some (.errorf ("Missing environment variables [" ++ " ".intercalate
          (emptyKeys (rangeOrder (credentials subscriptionID clientID clientSecret tenantID)))
          ++ "]")) ∧
      NewClient rangeOrder NewServicePrincipalTokenFromCredentials NewVirtualMachinesClient
          subscriptionID clientID clientSecret tenantID resourceGroupName
          resourceManagerEndpoint =
        (none, some (.withMessage (.errorf ("Missing environment variables [" ++
          " ".intercalate
            (emptyKeys (rangeOrder (credentials subscriptionID clientID clientSecret tenantID)))
          ++ "]")) "failed on check of env vars"))) ∧
    (∀ k, k ∈ emptyKeys (rangeOrder (credentials subscriptionID clientID clientSecret tenantID)) ↔
      (k = "AZURE_CLIENT_ID" ∧ clientID = "") ∨
      (k = "AZURE_CLIENT_SECRET" ∧ clientSecret = "") ∨
      (k = "AZURE_SUBSCRIPTION_ID" ∧ subscriptionID = "") ∨
      (k = "AZURE_TENANT_ID" ∧ tenantID = "")) ∧
    (emptyKeys (rangeOrder (credentials subscriptionID clientID clientSecret tenantID))).Nodup := by
  have hgen : ∀ l : List (String × String),
      (checkEnvVar l = none ↔ ∀ kv ∈ l, kv.2 ≠ "") ∧
      ((∃ kv ∈ l, kv.2 = "") →
        checkEnvVar l = some (.errorf ("Missing environment variables [" ++
          " ".intercalate (emptyKeys l) ++ "]"))) := by
    intro l
    rw [checkEnvVar_eq]
    by_cases hl : (emptyKeys l).length > 0
    · have hex := (emptyKeys_length_pos l).mp hl
      rw [if_pos hl]
      refine ⟨⟨fun h => by simp at h, fun h => ?_⟩, fun _ => rfl⟩
      obtain ⟨kv, hin, hkv⟩ := hex
      exact absurd hkv (h kv hin)
    · have hex : ¬ ∃ kv ∈ l, kv.2 = "" := fun h => hl ((emptyKeys_length_pos l).mpr h)
      rw [if_neg hl]
      exact ⟨⟨fun _ kv hin hkv => hex ⟨kv, hin, hkv⟩, fun _ => rfl⟩, fun h => absurd h hex⟩
  have hany : (∃ kv ∈ rangeOrder (credentials subscriptionID clientID clientSecret tenantID),
      kv.2 = "") ↔
      (clientID = "" ∨ clientSecret = "" ∨ subscriptionID = "" ∨ tenantID = "") := by
    constructor
    · rintro ⟨kv, hin, hkv⟩
      have := hperm.mem_iff.mp hin
      simp only [credentials, List.mem_cons, List.mem_singleton, List.not_mem_nil,
        or_false] at this
      rcases this with e | e | e | e <;> subst e <;> simp only at hkv
      · exact Or.inl hkv
      · exact Or.inr (Or.inl hkv)
      · exact Or.inr (Or.inr (Or.inl hkv))
      · exact Or.inr (Or.inr (Or.inr hkv))
    · rintro (h | h | h | h)
      · exact ⟨("AZURE_CLIENT_ID", clientID),
          hperm.mem_iff.mpr (by simp [credentials]), h⟩
      · exact ⟨("AZURE_CLIENT_SECRET", clientSecret),
          hperm.mem_iff.mpr (by simp [credentials]), h⟩
      · exact ⟨("AZURE_SUBSCRIPTION_ID", subscriptionID),
          hperm.mem_iff.mpr (by simp [credentials]), h⟩
      · exact ⟨("AZURE_TENANT_ID", tenantID),
          hperm.mem_iff.mpr (by simp [credentials]), h⟩
  obtain ⟨h1, h2⟩ := hgen envVars
  obtain ⟨h3, h4⟩ := hgen (rangeOrder (credentials subscriptionID clientID clientSecret tenantID))
  refine ⟨h1, h2, mem_emptyKeys envVars, ?_, ?_, ?_, ?_⟩
  · rw [Ne, h3, ← hany]
    constructor
    · intro h
      by_contra hne
      exact h (fun kv hin hkv => hne ⟨kv, hin, hkv⟩)
    · rintro ⟨kv, hin, hkv⟩ h
      exact h kv hin hkv
  · intro hempty
    have herr := h4 (hany.mpr hempty)
    exact ⟨herr, by simp [NewClient, herr, Wrap]⟩
  · intro k
    rw [mem_emptyKeys, hperm.mem_iff]
    simp only [credentials, List.mem_cons, List.mem_singleton, Prod.mk.injEq,
      List.not_mem_nil, or_false]
    constructor
    · rintro (⟨a, b⟩ | ⟨a, b⟩ | ⟨a, b⟩ | ⟨a, b⟩)
      · exact Or.inl ⟨a, b.symm⟩
      · exact Or.inr (Or.inl ⟨a, b.symm⟩)
      · exact Or.inr (Or.inr (Or.inl ⟨a, b.symm⟩))
      · exact Or.inr (Or.inr (Or.inr ⟨a, b.symm⟩))
    · rintro (⟨a, b⟩ | ⟨a, b⟩ | ⟨a, b⟩ | ⟨a, b⟩)
      · exact Or.inl ⟨a, b.symm⟩
      · exact Or.inr (Or.inl ⟨a, b.symm⟩)
      · exact Or.inr (Or.inr (Or.inl ⟨a, b.symm⟩))
      · exact Or.inr (Or.inr (Or.inr ⟨a, b.symm⟩))
  · have hp : (emptyKeys (rangeOrder (credentials subscriptionID clientID clientSecret
        tenantID))).Perm (emptyKeys (credentials subscriptionID clientID clientSecret
        tenantID)) := (hperm.filter _).map Prod.fst
    exact hp.nodup_iff.mpr (credentials_keys_nodup _ _ _ _)

/-- Witness of C10: the client secret and the tenant ID are empty, and `range`
visits the map in the reverse of the order in which it was written; the text of
the error names these two credentials, and `NewClient` returns it wrapped. -/
theorem credential_validation_witness :
    checkEnvVar (List.reverse (credentials "sub" "id" "" "")) =
        some (.errorf "Missing environment variables [AZURE_TENANT_ID AZURE_CLIENT_SECRET]") ∧
      NewClient List.reverse (fun _ _ => ("token", none))
          (fun _ _ => scriptedClient (fleet none none none)) "sub" "id" "" "" "rg" "" =
        (none, some (.withMessage
          (.errorf "Missing environment variables [AZURE_TENANT_ID AZURE_CLIENT_SECRET]")
          "failed on check of env vars")) :=
  (@credential_validation String Nat String List.reverse
    (fun _ _ => ("token", none)) (fun _ _ => scriptedClient (fleet none none none))
    "sub" "id" "" "" "rg" "" [("AZURE_CLIENT_ID", "")]
    (List.reverse_perm _)).2.2.2.2.1 (Or.inr (Or.inl rfl))


end Azure
